import Mathlib

/-!
Verification of the feature-engineering core of an NFL matchup-prediction
program (`src/features/engineer.py`, driven by `src/main.py`).

The embedding models the pandas data frames as Lean lists of records and the
numeric columns as rationals.  The three stages of the core are translated
from the source:

* `create_rolling_features` — sorts a team's weekly stats ascending by week
  and adds, for each of seven raw columns, a trailing rolling-mean column
  computed with window `window_size` and `min_periods=1`
  (pandas `Series.rolling(window, min_periods=1).mean()`).
* `create_matchup_features` — takes the last (most recent) smoothed row of
  each team (`iloc[-1]`, which raises on an empty frame) and builds one row
  of differential features, three of them scaled by the constant `2.0`.
* `prepare_training_data` — filters the schedule to `game_type == "REG"`
  rows, restricts each team's smoothed history to weeks strictly before the
  game, skips games where either restricted history has fewer than 3 rows,
  labels the matchup features with `home_win` and `point_diff`, and finally
  concatenates all produced one-row frames (`pd.concat` raises a
  `ValueError` when handed an empty list, which the embedding models as the
  `emptyConcat` error).

Python exceptions (`IndexError` from `iloc[-1]` on an empty frame, the
`ValueError` pandas raises for a non-positive rolling window, the
`ValueError` of `pd.concat([])`) are modelled with `Except EngineerError`.
-/

/-- One row of a team's weekly statistics table (raw columns only). -/
structure TeamWeekStat where
  week : Nat
  points : ℚ
  epa : ℚ
  success : ℚ
  def_epa : ℚ
  pts_allowed : ℚ
  turnovers : ℚ
  sacks : ℚ
  deriving Repr, DecidableEq

instance : Inhabited TeamWeekStat := ⟨⟨0, 0, 0, 0, 0, 0, 0, 0⟩⟩

/-- One row of a team's weekly statistics table after
`create_rolling_features` added the seven rolling-mean columns. -/
structure SmoothedRow where
  week : Nat
  points : ℚ
  epa : ℚ
  success : ℚ
  def_epa : ℚ
  pts_allowed : ℚ
  turnovers : ℚ
  sacks : ℚ
  points_rolling : ℚ
  epa_rolling : ℚ
  success_rolling : ℚ
  def_epa_rolling : ℚ
  pts_allowed_rolling : ℚ
  turnovers_rolling : ℚ
  sacks_rolling : ℚ
  deriving Repr, DecidableEq

instance : Inhabited SmoothedRow :=
  ⟨⟨0, 0, 0, 0, 0, 0, 0, 0, 0, 0, 0, 0, 0, 0, 0⟩⟩

/-- One row of the schedule table. -/
structure ScheduledGame where
  week : Nat
  home_team : String
  away_team : String
  home_score : Int
  away_score : Int
  game_type : String
  deriving Repr, DecidableEq

/-- The single feature row `create_matchup_features` builds
(`pd.DataFrame([features])`). -/
structure MatchupFeatureRow where
  pts_diff : ℚ
  epa_diff : ℚ
  success_diff : ℚ
  turnover_diff : ℚ
  t1_epa : ℚ
  t2_epa : ℚ
  t1_success : ℚ
  t2_success : ℚ
  def_epa_diff : ℚ
  pts_allowed_diff : ℚ
  sacks_diff : ℚ
  net_pts_diff : ℚ
  deriving Repr, DecidableEq

/-- A matchup feature row extended with the two labels
`prepare_training_data` attaches. -/
structure TrainingRow where
  features : MatchupFeatureRow
  home_win : Int
  point_diff : Int
  deriving Repr, DecidableEq

/-- The Python exceptions the feature engineer can surface, as an error type:
`invalidWindow` is the `ValueError` pandas raises inside
`Series.rolling(window, min_periods=1)` when `window ≤ 0`; `emptyInput` is
the `IndexError` of `iloc[-1]` on an empty frame; `emptyConcat` is the
`ValueError` of `pd.concat([])`. -/
inductive EngineerError where
  | invalidWindow : EngineerError
  | emptyInput : EngineerError
  | emptyConcat : EngineerError
  deriving Repr, DecidableEq

deriving instance DecidableEq for Except

/-- Model of `team_stats.sort_values` on `week`: a stable ascending sort by `week`
(pandas sorts stably from the caller's perspective here since ties keep
their relative order under the stable mergesort pandas uses; insertion sort
is likewise stable). -/
def sortByWeek (l : List TeamWeekStat) : List TeamWeekStat :=
  List.insertionSort (fun a b => a.week ≤ b.week) l

/-- Arithmetic mean of a list of rationals (`Rat` division by `0` yields `0`,
which only happens on the empty list, a case the smoother never produces). -/
def listMean (v : List ℚ) : ℚ :=
  v.sum / (v.length : ℚ)

/-- The observations pandas' trailing rolling window of size `W` sees at
position `i`: the last `W` entries of the length-`(i+1)` prefix. -/
def rollingWindow (W : Nat) (v : List ℚ) (i : Nat) : List ℚ :=
  (v.take (i + 1)).drop (i + 1 - W)

/-- The value of `v.rolling(window=W, min_periods=1).mean()` at position `i`
(all inputs are plain numbers, never NaN, so the observation count at `i` is
the window length). -/
def rollingMean (W : Nat) (v : List ℚ) (i : Nat) : ℚ :=
  listMean (rollingWindow W v i)

/-- The `min_periods` argument the source passes to `rolling`:  pandas
writes a null at position `i` exactly when the window at `i` holds fewer
than `min_periods` observations. -/
def minPeriods : Nat := 1

/-- Row `i` of the sorted frame after the seven rolling-mean columns are
assigned. -/
def smoothedRowAt (W : Nat) (l : List TeamWeekStat) (i : Nat) : SmoothedRow :=
  let t := l.getD i default
  { week := t.week
    points := t.points
    epa := t.epa
    success := t.success
    def_epa := t.def_epa
    pts_allowed := t.pts_allowed
    turnovers := t.turnovers
    sacks := t.sacks
    points_rolling := rollingMean W (l.map (·.points)) i
    epa_rolling := rollingMean W (l.map (·.epa)) i
    success_rolling := rollingMean W (l.map (·.success)) i
    def_epa_rolling := rollingMean W (l.map (·.def_epa)) i
    pts_allowed_rolling := rollingMean W (l.map (·.pts_allowed)) i
    turnovers_rolling := rollingMean W (l.map (·.turnovers)) i
    sacks_rolling := rollingMean W (l.map (·.sacks)) i }

/-- The `for col in rolling_cols` loop: every row of the (already sorted)
frame gains the seven rolling columns. -/
def addRollingCols (W : Nat) (l : List TeamWeekStat) : List SmoothedRow :=
  (List.range l.length).map (smoothedRowAt W l)

/-- The successful path of `create_rolling_features` for a positive window:
sort by week, then assign the rolling-mean columns. -/
def smoothTeam (W : Nat) (l : List TeamWeekStat) : List SmoothedRow :=
  addRollingCols W (sortByWeek l)

/-- Model of `FeatureEngineer.create_rolling_features`.  The window comes from
`FeatureEngineer.__init__` unvalidated; pandas raises a `ValueError` inside
the first `.rolling(...)` call when it is `≤ 0` (`window` negative, or
`min_periods=1` exceeding `window=0`), before any column is produced. -/
def create_rolling_features (w : Int) (team_stats : List TeamWeekStat) :
    Except EngineerError (List SmoothedRow) :=
  if w ≤ 0 then .error .invalidWindow
  else .ok (smoothTeam w.toNat team_stats)

/-- The `features` dictionary literal of `create_matchup_features`, built
from the two most-recent rows `t1` and `t2`. -/
@[reducible] def matchupRowOf (t1 t2 : SmoothedRow) : MatchupFeatureRow :=
  { pts_diff := t1.points_rolling - t2.points_rolling
    epa_diff := t1.epa_rolling - t2.epa_rolling
    success_diff := t1.success_rolling - t2.success_rolling
    turnover_diff := t1.turnovers_rolling - t2.turnovers_rolling
    t1_epa := t1.epa_rolling
    t2_epa := t2.epa_rolling
    t1_success := t1.success_rolling
    t2_success := t2.success_rolling
    def_epa_diff := (t1.def_epa_rolling - t2.def_epa_rolling) * 2.0
    pts_allowed_diff := (t1.pts_allowed_rolling - t2.pts_allowed_rolling) * 2.0
    sacks_diff := (t1.sacks_rolling - t2.sacks_rolling) * 2.0
    net_pts_diff := (t1.points_rolling - t1.pts_allowed_rolling) -
      (t2.points_rolling - t2.pts_allowed_rolling) }

/-- Model of `FeatureEngineer.create_matchup_features`: read the last row of each
team's frame (`iloc[-1]`, an `IndexError` on an empty frame) and build the
one-row feature frame. -/
def create_matchup_features (team1_stats team2_stats : List SmoothedRow) :
    Except EngineerError (List MatchupFeatureRow) :=
  match team1_stats.getLast?, team2_stats.getLast? with
  | some t1, some t2 => .ok [matchupRowOf t1 t2]
  | _, _ => .error .emptyInput

/-- The body of the `for idx, game in completed.iterrows()` loop for one
game: restrict each team's smoothed history to weeks strictly before the
game's week, skip (`continue`) when either restriction has fewer than 3
rows, otherwise label the matchup features with the game outcome. -/
def gameRows (all_team_stats : String → List SmoothedRow)
    (game : ScheduledGame) : Except EngineerError (List TrainingRow) :=
  let home_stats :=
    (all_team_stats game.home_team).filter (fun r => r.week < game.week)
  let away_stats :=
    (all_team_stats game.away_team).filter (fun r => r.week < game.week)
  if home_stats.length < 3 ∨ away_stats.length < 3 then
    .ok []
  else
    match create_matchup_features home_stats away_stats with
    | .ok features =>
        .ok (features.map (fun f =>
          { features := f
            home_win := if game.home_score > game.away_score then 1 else 0
            point_diff := game.home_score - game.away_score }))
    | .error e => .error e

/-- The loop of `prepare_training_data` over the `REG`-filtered schedule,
accumulating `training_data` in iteration order. -/
def buildRows (all_team_stats : String → List SmoothedRow) :
    List ScheduledGame → Except EngineerError (List TrainingRow)
  | [] => .ok []
  | game :: rest =>
      match gameRows all_team_stats game with
      | .ok r =>
          match buildRows all_team_stats rest with
          | .ok rs => .ok (r ++ rs)
          | .error e => .error e
      | .error e => .error e

/-- Model of `FeatureEngineer.prepare_training_data`: filter the schedule to
regular-season games, run the loop, and `pd.concat` the collected one-row
frames — which raises a `ValueError` when the list is empty. -/
def prepare_training_data (all_team_stats : String → List SmoothedRow)
    (schedules : List ScheduledGame) : Except EngineerError (List TrainingRow) :=
  match buildRows all_team_stats
      (schedules.filter (fun g => g.game_type == "REG")) with
  | .ok training_data =>
      if training_data.isEmpty then .error .emptyConcat
      else .ok training_data
  | .error e => .error e

theorem sortByWeek_length (l : List TeamWeekStat) :
    (sortByWeek l).length = l.length :=
  (List.perm_insertionSort _ l).length_eq

theorem addRollingCols_length (W : Nat) (l : List TeamWeekStat) :
    (addRollingCols W l).length = l.length := by
  simp [addRollingCols]

theorem smoothTeam_length (W : Nat) (l : List TeamWeekStat) :
    (smoothTeam W l).length = l.length := by
  simp [smoothTeam, addRollingCols_length, sortByWeek_length]

/-- A concrete smoothed row used to instantiate witnesses. -/
def sampleRow1 : SmoothedRow :=
  { week := 4, points := 24, epa := 1, success := 1/2, def_epa := -1,
    pts_allowed := 17, turnovers := 1, sacks := 3,
    points_rolling := 22, epa_rolling := 3/10, success_rolling := 12/25,
    def_epa_rolling := -1/5, pts_allowed_rolling := 18, turnovers_rolling := 1,
    sacks_rolling := 5/2 }

/-- A second concrete smoothed row used to instantiate witnesses. -/
def sampleRow2 : SmoothedRow :=
  { week := 4, points := 14, epa := -1, success := 2/5, def_epa := 1,
    pts_allowed := 27, turnovers := 2, sacks := 1,
    points_rolling := 16, epa_rolling := -1/10, success_rolling := 2/5,
    def_epa_rolling := 1/5, pts_allowed_rolling := 24, turnovers_rolling := 2,
    sacks_rolling := 3/2 }

/-- C3: for non-empty smoothed histories, `create_matchup_features` returns
exactly one row whose weighted fields are `2.0` times the difference of the
two last rows' smoothed defensive statistics, whose `net_pts_diff` is the
difference of the two teams' smoothed point margins, and whose unweighted
diffs and four absolute fields are taken directly from the same two last
rows. -/
theorem matchup_weighted_formulas (l1 l2 : List SmoothedRow)
    (s1 s2 : SmoothedRow)
    (h1 : l1.getLast? = some s1) (h2 : l2.getLast? = some s2) :
    ∃ r : MatchupFeatureRow,
      create_matchup_features l1 l2 = .ok [r] ∧
      r.def_epa_diff = 2.0 * (s1.def_epa_rolling - s2.def_epa_rolling) ∧
      r.pts_allowed_diff = 2.0 * (s1.pts_allowed_rolling - s2.pts_allowed_rolling) ∧
      r.sacks_diff = 2.0 * (s1.sacks_rolling - s2.sacks_rolling) ∧
      r.net_pts_diff = (s1.points_rolling - s1.pts_allowed_rolling) -
        (s2.points_rolling - s2.pts_allowed_rolling) ∧
      r.pts_diff = s1.points_rolling - s2.points_rolling ∧
      r.epa_diff = s1.epa_rolling - s2.epa_rolling ∧
      r.success_diff = s1.success_rolling - s2.success_rolling ∧
      r.turnover_diff = s1.turnovers_rolling - s2.turnovers_rolling ∧
      r.t1_epa = s1.epa_rolling ∧ r.t2_epa = s2.epa_rolling ∧
      r.t1_success = s1.success_rolling ∧ r.t2_success = s2.success_rolling := by
  unfold create_matchup_features
  rw [h1, h2]
  refine ⟨_, rfl, ?_, ?_, ?_, ?_, ?_, ?_, ?_, ?_, ?_, ?_, ?_, ?_⟩ <;> ring

theorem matchup_weighted_formulas_witness :
    ∃ r, create_matchup_features [sampleRow1] [sampleRow2] = .ok [r] := by
  obtain ⟨r, hr, -⟩ :=
    matchup_weighted_formulas [sampleRow1] [sampleRow2] sampleRow1 sampleRow2
      rfl rfl
  exact ⟨r, hr⟩

/-- C4: swapping the argument order of `create_matchup_features` negates
every `*_diff` field, swaps each `t1_*` value with the corresponding
`t2_*` value, and the three weighted fields remain scaled by exactly `2.0`
after the swap. -/
theorem matchup_argument_swap (l1 l2 : List SmoothedRow) (s1 s2 : SmoothedRow)
    (h1 : l1.getLast? = some s1) (h2 : l2.getLast? = some s2) :
    ∃ rAB rBA : MatchupFeatureRow,
      create_matchup_features l1 l2 = .ok [rAB] ∧
      create_matchup_features l2 l1 = .ok [rBA] ∧
      rBA.pts_diff = -rAB.pts_diff ∧
      rBA.epa_diff = -rAB.epa_diff ∧
      rBA.success_diff = -rAB.success_diff ∧
      rBA.turnover_diff = -rAB.turnover_diff ∧
      rBA.def_epa_diff = -rAB.def_epa_diff ∧
      rBA.pts_allowed_diff = -rAB.pts_allowed_diff ∧
      rBA.sacks_diff = -rAB.sacks_diff ∧
      rBA.net_pts_diff = -rAB.net_pts_diff ∧
      rBA.t1_epa = rAB.t2_epa ∧ rBA.t2_epa = rAB.t1_epa ∧
      rBA.t1_success = rAB.t2_success ∧ rBA.t2_success = rAB.t1_success ∧
      rBA.def_epa_diff = 2.0 * (s2.def_epa_rolling - s1.def_epa_rolling) ∧
      rBA.pts_allowed_diff = 2.0 * (s2.pts_allowed_rolling - s1.pts_allowed_rolling) ∧
      rBA.sacks_diff = 2.0 * (s2.sacks_rolling - s1.sacks_rolling) := by
  unfold create_matchup_features
  rw [h1, h2]
  refine ⟨_, _, rfl, rfl, ?_, ?_, ?_, ?_, ?_, ?_, ?_, ?_, ?_, ?_, ?_, ?_,
    ?_, ?_, ?_⟩ <;> ring

theorem matchup_argument_swap_witness :
    ∃ rAB rBA, create_matchup_features [sampleRow1] [sampleRow2] = .ok [rAB] ∧
      create_matchup_features [sampleRow2] [sampleRow1] = .ok [rBA] := by
  obtain ⟨rAB, rBA, hAB, hBA, -⟩ :=
    matchup_argument_swap [sampleRow1] [sampleRow2] sampleRow1 sampleRow2
      rfl rfl
  exact ⟨rAB, rBA, hAB, hBA⟩

/-- C8: `create_matchup_features` fails with the empty-input error whenever
either team's smoothed sequence is empty, never substituting default
values, and for non-empty inputs its result is a function of only the last
(most recent week) element of each team's sequence. -/
theorem matchup_empty_fails_and_uses_last (l1 l2 : List SmoothedRow) :
    ((l1 = [] ∨ l2 = []) →
      create_matchup_features l1 l2 = .error .emptyInput) ∧
    (∀ s1 s2, l1.getLast? = some s1 → l2.getLast? = some s2 →
      create_matchup_features l1 l2 = create_matchup_features [s1] [s2]) := by
  constructor
  · rintro (rfl | rfl)
    · simp [create_matchup_features]
    · unfold create_matchup_features
      cases l1.getLast? <;> rfl
  · intro s1 s2 h1 h2
    unfold create_matchup_features
    rw [h1, h2]
    rfl

theorem matchup_empty_fails_and_uses_last_witness :
    create_matchup_features [] [sampleRow2] = .error .emptyInput ∧
    create_matchup_features [sampleRow2, sampleRow1] [sampleRow2] =
      create_matchup_features [sampleRow1] [sampleRow2] :=
  ⟨(matchup_empty_fails_and_uses_last [] [sampleRow2]).1 (Or.inl rfl),
   (matchup_empty_fails_and_uses_last [sampleRow2, sampleRow1] [sampleRow2]).2
     sampleRow1 sampleRow2 rfl rfl⟩

/-- C9: the rolling smoother fails fast with the invalid-window error for
every window `≤ 0` instead of computing a result, and succeeds for every
positive window and non-empty input, producing one output row per input
row rather than truncating. -/
theorem rolling_window_validation (w : Int) (l : List TeamWeekStat) :
    (w ≤ 0 → create_rolling_features w l = .error .invalidWindow) ∧
    (0 < w → l ≠ [] → ∃ out, create_rolling_features w l = .ok out ∧
      out.length = l.length ∧ out ≠ []) := by
  constructor
  · intro hw
    simp [create_rolling_features, hw]
  · intro hw hl
    refine ⟨smoothTeam w.toNat l, ?_, smoothTeam_length _ _, ?_⟩
    · simp [create_rolling_features, not_le.mpr hw]
    · have hlen : (smoothTeam w.toNat l).length = l.length :=
        smoothTeam_length _ _
      intro hnil
      rw [hnil] at hlen
      exact hl (List.length_eq_zero.mp hlen.symm)

theorem rolling_window_validation_witness :
    create_rolling_features (-1) [] = .error .invalidWindow ∧
    ∃ out, create_rolling_features 5 [default] = .ok out ∧
      out.length = 1 ∧ out ≠ [] :=
  ⟨(rolling_window_validation (-1) []).1 (by decide),
   (rolling_window_validation 5 [default]).2 (by decide) (by simp)⟩

/-- The positions `[max (0, i - W + 1), i]` of a series, written from the
spec's words, to compare with the window the code's `rolling` call uses
(`i + 1 - W` is the truncated subtraction `max (0, i - W + 1)` and
`min (i + 1) W` the number of positions in the range). -/
def specTrailingSlice (W : Nat) (v : List ℚ) (i : Nat) : List ℚ :=
  (v.drop (i + 1 - W)).take (min (i + 1) W)

theorem rollingWindow_eq_specTrailingSlice (W : Nat) (v : List ℚ) (i : Nat) :
    rollingWindow W v i = specTrailingSlice W v i := by
  unfold rollingWindow specTrailingSlice
  rw [List.drop_take]
  congr 1
  omega

theorem rollingWindow_length (W : Nat) (v : List ℚ) (i : Nat)
    (hi : i < v.length) :
    (rollingWindow W v i).length = min (i + 1) W := by
  unfold rollingWindow
  rw [List.length_drop, List.length_take]
  omega

theorem addRollingCols_getD (W : Nat) (l : List TeamWeekStat) (i : Nat)
    (hi : i < l.length) :
    (addRollingCols W l).getD i default = smoothedRowAt W l i := by
  unfold addRollingCols
  rw [List.getD_eq_getElem?_getD, List.getElem?_map, List.getElem?_range hi]
  rfl

/-- The seven raw columns the source smooths, each paired with the smoothed
column `create_rolling_features` assigns for it. -/
def rollingFieldPairs : List ((SmoothedRow → ℚ) × (TeamWeekStat → ℚ)) :=
  [(fun r => r.points_rolling, fun t => t.points),
   (fun r => r.epa_rolling, fun t => t.epa),
   (fun r => r.success_rolling, fun t => t.success),
   (fun r => r.def_epa_rolling, fun t => t.def_epa),
   (fun r => r.pts_allowed_rolling, fun t => t.pts_allowed),
   (fun r => r.turnovers_rolling, fun t => t.turnovers),
   (fun r => r.sacks_rolling, fun t => t.sacks)]

theorem smoothTeam_field (W : Nat) (hW : 0 < W) (l : List TeamWeekStat)
    (g : SmoothedRow → ℚ) (f : TeamWeekStat → ℚ)
    (hgf : ∀ s i, g (smoothedRowAt W s i) = rollingMean W (s.map f) i)
    (i : Nat) (hi : i < (smoothTeam W l).length) :
    g ((smoothTeam W l).getD i default) =
      listMean (specTrailingSlice W ((sortByWeek l).map f) i) ∧
    minPeriods ≤ (rollingWindow W ((sortByWeek l).map f) i).length ∧
    ((smoothTeam W l).length < W → i + 1 = (smoothTeam W l).length →
      g ((smoothTeam W l).getD i default) =
        listMean ((sortByWeek l).map f)) := by
  have hlen := smoothTeam_length W l
  have hi' : i < (sortByWeek l).length := by rw [sortByWeek_length]; omega
  have hget : (smoothTeam W l).getD i default =
      smoothedRowAt W (sortByWeek l) i := by
    unfold smoothTeam
    exact addRollingCols_getD W (sortByWeek l) i hi'
  have hvlen : ((sortByWeek l).map f).length = (smoothTeam W l).length := by
    rw [List.length_map, sortByWeek_length, hlen]
  refine ⟨?_, ?_, ?_⟩
  · rw [hget, hgf]
    unfold rollingMean
    rw [rollingWindow_eq_specTrailingSlice]
  · rw [rollingWindow_length]
    · unfold minPeriods
      omega
    · omega
  · intro hn hlast
    rw [hget, hgf]
    unfold rollingMean rollingWindow
    rw [List.take_of_length_le (by omega), Nat.sub_eq_zero_of_le (by omega),
      List.drop_zero]

/-- C2: for every positive window `w` and every input series, at every
position `i` of the output (0-indexed after sorting ascending by week) each
of the seven smoothed columns equals the arithmetic mean of its raw column
over positions `max (0, i - w + 1)` through `i` inclusive; the window
observed at every position holds at least `min_periods = 1` observations
(so no smoothed value is null); and when the series is shorter than the
window, the smoothed value at the last position is the mean of all raw
values. -/
theorem rolling_features_trailing_mean (w : Int) (hw : 0 < w)
    (l : List TeamWeekStat) (out : List SmoothedRow)
    (hout : create_rolling_features w l = .ok out) :
    out.length = l.length ∧
    ∀ fp ∈ rollingFieldPairs, ∀ i, i < out.length →
      fp.1 (out.getD i default) =
        listMean (specTrailingSlice w.toNat ((sortByWeek l).map fp.2) i) ∧
      minPeriods ≤ (rollingWindow w.toNat ((sortByWeek l).map fp.2) i).length ∧
      (out.length < w.toNat → i + 1 = out.length →
        fp.1 (out.getD i default) = listMean ((sortByWeek l).map fp.2)) := by
  unfold create_rolling_features at hout
  rw [if_neg (not_le.mpr hw)] at hout
  injection hout with hout
  subst hout
  have hW : 0 < w.toNat := by omega
  refine ⟨smoothTeam_length _ _, ?_⟩
  intro fp hfp i hi
  fin_cases hfp <;>
    exact smoothTeam_field w.toNat hW l _ _ (fun _ _ => rfl) i hi

/-- The end-to-end raw series of §8 of the spec: weekly points
`[20, 24, 17, 28, 31]` with all other columns zeroed. -/
def teamAStats : List TeamWeekStat :=
  [{ week := 1, points := 20, epa := 0, success := 0, def_epa := 0,
     pts_allowed := 0, turnovers := 0, sacks := 0 },
   { week := 2, points := 24, epa := 0, success := 0, def_epa := 0,
     pts_allowed := 0, turnovers := 0, sacks := 0 },
   { week := 3, points := 17, epa := 0, success := 0, def_epa := 0,
     pts_allowed := 0, turnovers := 0, sacks := 0 },
   { week := 4, points := 28, epa := 0, success := 0, def_epa := 0,
     pts_allowed := 0, turnovers := 0, sacks := 0 },
   { week := 5, points := 31, epa := 0, success := 0, def_epa := 0,
     pts_allowed := 0, turnovers := 0, sacks := 0 }]

theorem rolling_features_trailing_mean_witness :
    ((smoothTeam 5 teamAStats).getD 4 default).points_rolling =
      listMean (specTrailingSlice 5 ((sortByWeek teamAStats).map
        (fun t => t.points)) 4) := by
  have h := (rolling_features_trailing_mean 5 (by decide) teamAStats
      (smoothTeam 5 teamAStats) rfl).2
      (fun r => r.points_rolling, fun t => t.points)
      (by unfold rollingFieldPairs; exact List.mem_cons_self _ _)
      4 (by rw [smoothTeam_length]; decide)
  exact h.1

/-- Written from the spec's words: both participating teams have at least 3
qualifying prior weeks of data (rows with week strictly before the game's
week), the minimum-history side of eligibility. -/
def hasMinHistory (all_team_stats : String → List SmoothedRow)
    (game : ScheduledGame) : Prop :=
  3 ≤ ((all_team_stats game.home_team).filter
        (fun r => r.week < game.week)).length ∧
  3 ≤ ((all_team_stats game.away_team).filter
        (fun r => r.week < game.week)).length

instance (all_team_stats : String → List SmoothedRow) (game : ScheduledGame) :
    Decidable (hasMinHistory all_team_stats game) := by
  unfold hasMinHistory
  infer_instance

/-- The labeled training row an eligible game produces: the matchup row of
the two restricted histories' last rows, plus the outcome labels. -/
def gameTrainingRow (all_team_stats : String → List SmoothedRow)
    (game : ScheduledGame) : TrainingRow :=
  { features := matchupRowOf
      (((all_team_stats game.home_team).filter
          (fun r => r.week < game.week)).getLastD default)
      (((all_team_stats game.away_team).filter
          (fun r => r.week < game.week)).getLastD default)
    home_win := if game.home_score > game.away_score then 1 else 0
    point_diff := game.home_score - game.away_score }

theorem gameRows_eq (all_team_stats : String → List SmoothedRow)
    (game : ScheduledGame) :
    gameRows all_team_stats game =
      .ok (if hasMinHistory all_team_stats game
        then [gameTrainingRow all_team_stats game] else []) := by
  by_cases h : hasMinHistory all_team_stats game
  · rw [if_pos h]
    obtain ⟨h1, h2⟩ := h
    have hne1 : (all_team_stats game.home_team).filter
        (fun r => r.week < game.week) ≠ [] :=
      List.ne_nil_of_length_pos (by omega)
    have hne2 : (all_team_stats game.away_team).filter
        (fun r => r.week < game.week) ≠ [] :=
      List.ne_nil_of_length_pos (by omega)
    unfold gameRows
    rw [if_neg (by omega)]
    unfold create_matchup_features
    rw [List.getLast?_eq_getLast _ hne1, List.getLast?_eq_getLast _ hne2]
    unfold gameTrainingRow
    rw [List.getLastD_eq_getLast?, List.getLastD_eq_getLast?,
      List.getLast?_eq_getLast _ hne1, List.getLast?_eq_getLast _ hne2]
    rfl
  · rw [if_neg h]
    unfold hasMinHistory at h
    unfold gameRows
    rw [if_pos (by omega)]

theorem buildRows_eq (all_team_stats : String → List SmoothedRow) :
    ∀ gs : List ScheduledGame,
      buildRows all_team_stats gs =
        .ok ((gs.filter (fun g => hasMinHistory all_team_stats g)).map
          (gameTrainingRow all_team_stats))
  | [] => rfl
  | g :: rest => by
      unfold buildRows
      rw [gameRows_eq, buildRows_eq all_team_stats rest]
      by_cases h : hasMinHistory all_team_stats g
      · simp [h]
      · simp [h]

/-- An all-zero smoothed row at a given week, for concrete scenarios. -/
def sampleSmoothed (wk : Nat) : SmoothedRow :=
  { (default : SmoothedRow) with week := wk }

/-- Team histories where the home team has exactly 2 weeks before week 6
and the away team has 5. -/
def statsHome2Away5 : String → List SmoothedRow := fun t =>
  if t = "HOM" then [sampleSmoothed 1, sampleSmoothed 2]
  else if t = "AWY" then
    [sampleSmoothed 1, sampleSmoothed 2, sampleSmoothed 3,
     sampleSmoothed 4, sampleSmoothed 5]
  else []

/-- Team histories where the home team is raised to 3 weeks before week 6
and the away team has 5. -/
def statsHome3Away5 : String → List SmoothedRow := fun t =>
  if t = "HOM" then [sampleSmoothed 1, sampleSmoothed 2, sampleSmoothed 3]
  else if t = "AWY" then
    [sampleSmoothed 1, sampleSmoothed 2, sampleSmoothed 3,
     sampleSmoothed 4, sampleSmoothed 5]
  else []

/-- A week-6 regular-season game that the home team wins 24–10. -/
def regGameWeek6 : ScheduledGame :=
  { week := 6, home_team := "HOM", away_team := "AWY",
    home_score := 24, away_score := 10, game_type := "REG" }

/-- The same matchup ending in a 10–10 tie. -/
def tieGameWeek6 : ScheduledGame :=
  { regGameWeek6 with home_score := 10, away_score := 10 }

/-- The same matchup played as a playoff game. -/
def postGameWeek6 : ScheduledGame :=
  { regGameWeek6 with game_type := "POST" }

/-- C5: a game contributes a training row if and only if its `game_type`
is `"REG"` and both participating teams have at least 3 rows with week
strictly before the game's week; in particular a week-6 regular-season
game whose home team has exactly 2 qualifying prior weeks (away team 5)
contributes zero rows, and raising the home team to 3 qualifying prior
weeks makes it contribute exactly one. -/
theorem game_contribution_iff (all_team_stats : String → List SmoothedRow)
    (g : ScheduledGame) :
    (buildRows all_team_stats ([g].filter (fun x => x.game_type == "REG")) =
      .ok (if g.game_type = "REG" ∧ hasMinHistory all_team_stats g
        then [gameTrainingRow all_team_stats g] else [])) ∧
    buildRows statsHome2Away5
      ([regGameWeek6].filter (fun x => x.game_type == "REG")) = .ok [] ∧
    buildRows statsHome3Away5
      ([regGameWeek6].filter (fun x => x.game_type == "REG")) =
      .ok [gameTrainingRow statsHome3Away5 regGameWeek6] := by
  refine ⟨?_, ?_, ?_⟩
  · by_cases hreg : g.game_type = "REG"
    · have hfil : [g].filter (fun x => x.game_type == "REG") = [g] := by
        simp [hreg]
      rw [hfil, buildRows_eq]
      by_cases hmin : hasMinHistory all_team_stats g
      · simp [hmin, hreg]
      · simp [hmin, hreg]
    · have hfil : [g].filter (fun x => x.game_type == "REG") = [] := by
        simp [hreg]
      rw [hfil]
      simp [buildRows, hreg]
  · decide
  · rfl

/-- C6: the training row produced for an eligible game carries
`home_win = 1` when the home score exceeds the away score and `0`
otherwise (so a tie yields `0`), and `point_diff` is the signed difference
`home_score - away_score`. -/
theorem training_row_labels (all_team_stats : String → List SmoothedRow)
    (g : ScheduledGame) (hmin : hasMinHistory all_team_stats g) :
    ∃ r : TrainingRow, gameRows all_team_stats g = .ok [r] ∧
      r.home_win = (if g.home_score > g.away_score then 1 else 0) ∧
      r.point_diff = g.home_score - g.away_score := by
  rw [gameRows_eq, if_pos hmin]
  exact ⟨_, rfl, rfl, rfl⟩

theorem training_row_labels_witness :
    (∃ r, gameRows statsHome3Away5 regGameWeek6 = .ok [r] ∧
      r.home_win = 1 ∧ r.point_diff = 14) ∧
    (∃ r, gameRows statsHome3Away5 tieGameWeek6 = .ok [r] ∧
      r.home_win = 0 ∧ r.point_diff = 0) := by
  constructor
  · obtain ⟨r, hr, hw, hp⟩ :=
      training_row_labels statsHome3Away5 regGameWeek6 (by decide)
    exact ⟨r, hr, by rw [hw]; decide, by rw [hp]; decide⟩
  · obtain ⟨r, hr, hw, hp⟩ :=
      training_row_labels statsHome3Away5 tieGameWeek6 (by decide)
    exact ⟨r, hr, by rw [hw]; decide, by rw [hp]; decide⟩

/-- C7 counterexample: on a schedule whose only game is a playoff game
(zero eligible games), `prepare_training_data` does not return an empty
sequence — it fails with the empty-concatenation error, modelling the
`ValueError` that `pd.concat([])` raises on line 87 of the source. -/
theorem prepare_zero_eligible_raises :
    prepare_training_data statsHome3Away5 [postGameWeek6] =
      .error .emptyConcat ∧
    prepare_training_data statsHome3Away5 [postGameWeek6] ≠ .ok [] := by
  constructor
  · decide
  · decide

/-- C7 amended: when at least one game is eligible the returned rows are
one per eligible game in schedule iteration order, but when the schedule
yields zero eligible games `prepare_training_data` raises the
empty-concatenation error (from `pd.concat` on an empty list) instead of
returning an empty sequence. -/
theorem prepare_training_data_order (all_team_stats : String → List SmoothedRow)
    (schedules : List ScheduledGame) :
    prepare_training_data all_team_stats schedules =
      (if ((schedules.filter (fun g => g.game_type == "REG")).filter
            (fun g => hasMinHistory all_team_stats g)) = []
       then .error .emptyConcat
       else .ok (((schedules.filter (fun g => g.game_type == "REG")).filter
            (fun g => hasMinHistory all_team_stats g)).map
              (gameTrainingRow all_team_stats))) := by
  unfold prepare_training_data
  rw [buildRows_eq]
  by_cases h : ((schedules.filter (fun g => g.game_type == "REG")).filter
      (fun g => hasMinHistory all_team_stats g)) = []
  · rw [if_pos h, h]
    rfl
  · rw [if_neg h]
    obtain ⟨g0, gs0, hL⟩ := List.exists_cons_of_ne_nil h
    rw [hL]
    rfl

theorem filter_lt_eq_take {α : Type} (wk : α → Nat) (w : Nat) :
    ∀ l : List α, List.Pairwise (fun a b => wk a ≤ wk b) l →
      l.filter (fun a => wk a < w) = l.take (l.countP (fun a => wk a < w))
  | [], _ => rfl
  | a :: t, hp => by
      obtain ⟨ha, ht⟩ := List.pairwise_cons.mp hp
      by_cases h : wk a < w
      · rw [List.filter_cons_of_pos (by simpa using h),
          List.countP_cons_of_pos _ _ (by simpa using h),
          List.take_succ_cons, filter_lt_eq_take wk w t ht]
      · have hall : ∀ b ∈ t, ¬ wk b < w := fun b hb hlt =>
          h (lt_of_le_of_lt (ha b hb) hlt)
        rw [List.filter_cons_of_neg (by simpa using h),
          List.countP_cons_of_neg _ _ (by simpa using h),
          List.filter_eq_nil_iff.mpr (fun b hb => by simpa using hall b hb),
          List.countP_eq_zero.mpr (fun b hb => by simpa using hall b hb)]
        rfl

theorem rollingMean_take (W k : Nat) (v : List ℚ) (i : Nat) (hik : i < k) :
    rollingMean W (v.take k) i = rollingMean W v i := by
  unfold rollingMean rollingWindow
  rw [List.take_take, Nat.min_eq_left (by omega)]

theorem smoothedRowAt_take (W k : Nat) (l : List TeamWeekStat) (i : Nat)
    (hik : i < k) :
    smoothedRowAt W (l.take k) i = smoothedRowAt W l i := by
  unfold smoothedRowAt
  have hg : (l.take k).getD i default = l.getD i default := by
    rw [List.getD_eq_getElem?_getD, List.getD_eq_getElem?_getD,
      List.getElem?_take_of_lt hik]
  have hm : ∀ f : TeamWeekStat → ℚ,
      rollingMean W ((l.take k).map f) i = rollingMean W (l.map f) i := by
    intro f
    rw [List.map_take, rollingMean_take W k _ i hik]
  simp only [hg, hm]

theorem addRollingCols_take (W k : Nat) (l : List TeamWeekStat) :
    addRollingCols W (l.take k) = (addRollingCols W l).take k := by
  unfold addRollingCols
  rw [← List.map_take, List.take_range, List.length_take]
  apply List.map_eq_map_iff.mpr
  intro i hi
  exact smoothedRowAt_take W k l i (by
    have := List.mem_range.mp hi
    omega)

theorem range_map_getD {α β : Type} [Inhabited α] (g : α → β) :
    ∀ l : List α,
      (List.range l.length).map (fun i => g (l.getD i default)) = l.map g
  | [] => rfl
  | a :: t => by
      rw [List.length_cons, List.range_succ_eq_map, List.map_cons,
        List.map_map, List.map_cons]
      congr 1
      have hc : ((fun i => g ((a :: t).getD i default)) ∘ Nat.succ) =
          fun i => g (t.getD i default) := by
        funext i
        rw [Function.comp_apply, List.getD_cons_succ]
      rw [hc, range_map_getD g t]

theorem addRollingCols_map_week (W : Nat) (l : List TeamWeekStat) :
    (addRollingCols W l).map (fun r => r.week) =
      l.map (fun t => t.week) := by
  unfold addRollingCols
  rw [List.map_map]
  exact range_map_getD (fun t => t.week) l

theorem pairwise_week_of_map_week {α β : Type} (wk1 : α → Nat)
    (wk2 : β → Nat) (l1 : List α) (l2 : List β)
    (h : l1.map wk1 = l2.map wk2)
    (hp : List.Pairwise (fun a b => wk1 a ≤ wk1 b) l1) :
    List.Pairwise (fun a b => wk2 a ≤ wk2 b) l2 := by
  have h1 : List.Pairwise (fun a b : Nat => a ≤ b) (l1.map wk1) :=
    List.pairwise_map.mpr hp
  rw [h] at h1
  exact List.pairwise_map.mp h1

theorem filter_week_eq_take_stat (w : Nat) (l : List TeamWeekStat)
    (hl : List.Pairwise (fun a b => a.week ≤ b.week) l) :
    l.filter (fun s => s.week < w) =
      l.take (l.countP (fun s => s.week < w)) :=
  filter_lt_eq_take (fun s => s.week) w l hl

theorem filter_week_eq_take_smoothed (w : Nat) (l : List SmoothedRow)
    (hl : List.Pairwise (fun a b => a.week ≤ b.week) l) :
    l.filter (fun r => r.week < w) =
      l.take (l.countP (fun r => r.week < w)) :=
  filter_lt_eq_take (fun r => r.week) w l hl

/-- Restricting a smoothed history to weeks before `w` gives the same rows
as smoothing the raw history already restricted to weeks before `w`:
the trailing window at a kept row never reaches a dropped (later) week. -/
theorem smoothTeam_filter_comm (W w : Nat) (l : List TeamWeekStat)
    (hl : List.Pairwise (fun a b => a.week ≤ b.week) l) :
    (smoothTeam W l).filter (fun r => r.week < w) =
      (smoothTeam W (l.filter (fun s => s.week < w))).filter
        (fun r => r.week < w) := by
  have hsortl : sortByWeek l = l := List.Sorted.insertionSort_eq hl
  have hlf : List.Pairwise (fun a b => a.week ≤ b.week)
      (l.filter (fun s => s.week < w)) := hl.filter _
  have hsortlf : sortByWeek (l.filter (fun s => s.week < w)) =
      l.filter (fun s => s.week < w) := List.Sorted.insertionSort_eq hlf
  unfold smoothTeam
  rw [hsortl, hsortlf]
  have hmw := addRollingCols_map_week W l
  have hsm : List.Pairwise (fun a b : SmoothedRow => a.week ≤ b.week)
      (addRollingCols W l) :=
    pairwise_week_of_map_week _ _ l (addRollingCols W l) hmw.symm hl
  have hcnt : (addRollingCols W l).countP (fun r => r.week < w) =
      l.countP (fun s => s.week < w) := by
    have h1 : (addRollingCols W l).countP (fun r => r.week < w) =
        ((addRollingCols W l).map (fun r => r.week)).countP
          (fun n => n < w) := by
      rw [List.countP_map]
      rfl
    rw [h1, hmw, List.countP_map]
    rfl
  have hall : ∀ r ∈ addRollingCols W (l.filter (fun s => s.week < w)),
      decide (r.week < w) = true := by
    intro r hr
    have hmem : r.week ∈ (addRollingCols W
        (l.filter (fun s => s.week < w))).map (fun r => r.week) :=
      List.mem_map_of_mem _ hr
    rw [addRollingCols_map_week] at hmem
    obtain ⟨t, ht, hte⟩ := List.mem_map.mp hmem
    have htw := List.of_mem_filter ht
    rw [← hte]
    simpa using htw
  rw [filter_week_eq_take_smoothed w _ hsm, hcnt, ← addRollingCols_take,
    ← filter_week_eq_take_stat w l hl, List.filter_eq_self.mpr hall]

/-- C1: no leakage — the training row the assembler produces for a game at
week `w` is a function only of the two teams' raw rows with week strictly
less than `w`: smoothing the full season and then restricting to prior
weeks (as `main.py` and `prepare_training_data` do) yields exactly the
same result as handing the assembler histories truncated to weeks `< w`
before smoothing. -/
theorem no_leakage (W : Nat) (raw : String → List TeamWeekStat)
    (g : ScheduledGame)
    (hh : List.Pairwise (fun a b => a.week ≤ b.week) (raw g.home_team))
    (ha : List.Pairwise (fun a b => a.week ≤ b.week) (raw g.away_team)) :
    gameRows (fun t => smoothTeam W (raw t)) g =
      gameRows (fun t => smoothTeam W ((raw t).filter
        (fun s => s.week < g.week))) g := by
  unfold gameRows
  rw [smoothTeam_filter_comm W g.week _ hh, smoothTeam_filter_comm W g.week _ ha]

/-- A raw weekly stat row with the given week and points, other columns
zero. -/
def rawRow (wk : Nat) (p : ℚ) : TeamWeekStat :=
  { week := wk, points := p, epa := 0, success := 0, def_epa := 0,
    pts_allowed := 0, turnovers := 0, sacks := 0 }

/-- Full-season raw histories (weeks 1–8, running past the week-6 game)
used to instantiate the no-leakage theorem. -/
def rawSeason : String → List TeamWeekStat := fun t =>
  if t = "HOM" then
    [rawRow 1 20, rawRow 2 24, rawRow 3 17, rawRow 4 28, rawRow 5 31,
     rawRow 6 10, rawRow 7 35, rawRow 8 3]
  else if t = "AWY" then
    [rawRow 1 14, rawRow 2 10, rawRow 3 21, rawRow 4 17, rawRow 5 20,
     rawRow 6 40, rawRow 7 6, rawRow 8 27]
  else []

theorem no_leakage_witness :
    List.Pairwise (fun a b => a.week ≤ b.week)
      (rawSeason regGameWeek6.home_team) ∧
    gameRows (fun t => smoothTeam 5 (rawSeason t)) regGameWeek6 =
      gameRows (fun t => smoothTeam 5 ((rawSeason t).filter
        (fun s => s.week < regGameWeek6.week))) regGameWeek6 :=
  ⟨by decide, no_leakage 5 rawSeason regGameWeek6 (by decide) (by decide)⟩

/-- A pandas object a Python variable can reference in this program: a raw
team-stats frame, or one extended with the seven rolling columns. -/
inductive DFVal where
  | raw : List TeamWeekStat → DFVal
  | smoothed : List SmoothedRow → DFVal
  deriving Repr, DecidableEq

/-- The Python object heap: references are indices into the list of live
data frames. -/
structure PyHeap where
  dfs : List DFVal
  deriving Repr, DecidableEq

/-- Allocate a fresh data frame, returning its reference. -/
def PyHeap.alloc (h : PyHeap) (v : DFVal) : PyHeap × Nat :=
  (⟨h.dfs ++ [v]⟩, h.dfs.length)

/-- Overwrite the object a reference points to (pandas column assignment
mutates the referenced frame in place). -/
def PyHeap.write (h : PyHeap) (r : Nat) (v : DFVal) : PyHeap :=
  ⟨h.dfs.set r v⟩

/-- Dereference. -/
def PyHeap.read (h : PyHeap) (r : Nat) : Option DFVal :=
  h.dfs[r]?

/-- Model of `create_rolling_features` run against the object heap, on a reference to
a raw team-stats frame: the sort by `week` (without
`inplace`) allocates a fresh sorted copy and rebinds the local `team_stats`
name to it, the column-assignment loop then mutates only that copy (after
pandas validates the window), and the copy's reference is returned.
Calling it on a dangling reference or a non-raw frame is a caller type
error outside the modelled contract (`emptyInput` stands in for the
resulting Python exception; no heap is returned either way). -/
def create_rolling_features_heap (w : Int) (h : PyHeap) (r : Nat) :
    Except EngineerError (PyHeap × Nat) :=
  match h.read r with
  | some (.raw rows) =>
      match PyHeap.alloc h (.raw (sortByWeek rows)) with
      | (h1, r1) =>
          if w ≤ 0 then .error .invalidWindow
          else .ok (h1.write r1 (.smoothed (smoothTeam w.toNat rows)), r1)
  | _ => .error .emptyInput

/-- C10: `create_rolling_features` leaves the caller's input structure
unchanged — after a successful call the caller's reference still holds
exactly the raw rows (same order, columns and values) it held before, the
returned reference is a different object, and the smoothed columns exist
only on that newly returned structure. -/
theorem rolling_features_no_mutation (w : Int) (h : PyHeap) (r : Nat)
    (rows : List TeamWeekStat) (hr : h.read r = some (.raw rows)) :
    ∀ h' r', create_rolling_features_heap w h r = .ok (h', r') →
      h'.read r = some (.raw rows) ∧ r' ≠ r ∧
      h'.read r' = some (.smoothed (smoothTeam w.toNat rows)) := by
  intro h' r' hok
  have hlt : r < h.dfs.length := by
    by_contra hc
    unfold PyHeap.read at hr
    rw [List.getElem?_eq_none (by omega)] at hr
    cases hr
  have heq : create_rolling_features_heap w h r =
      if w ≤ 0 then .error .invalidWindow
      else .ok ((PyHeap.mk (h.dfs ++ [.raw (sortByWeek rows)])).write
        h.dfs.length (.smoothed (smoothTeam w.toNat rows)), h.dfs.length) := by
    unfold create_rolling_features_heap
    rw [hr]
    rfl
  rw [heq] at hok
  by_cases hw : w ≤ 0
  · rw [if_pos hw] at hok
    cases hok
  · rw [if_neg hw] at hok
    injection hok with hok
    injection hok with hh' hr'
    subst hh'
    subst hr'
    refine ⟨?_, by omega, ?_⟩
    · unfold PyHeap.write PyHeap.read
      rw [List.getElem?_set_ne (by omega), List.getElem?_append_left hlt]
      exact hr
    · unfold PyHeap.write PyHeap.read
      rw [List.getElem?_set_self (by simp)]

theorem rolling_features_no_mutation_witness :
    ∃ h' r', create_rolling_features_heap 5 ⟨[.raw teamAStats]⟩ 0 =
        .ok (h', r') ∧
      PyHeap.read h' 0 = some (.raw teamAStats) ∧ r' ≠ 0 := by
  obtain ⟨h1, h2, -⟩ :=
    rolling_features_no_mutation 5 ⟨[.raw teamAStats]⟩ 0 teamAStats rfl
      (PyHeap.write ⟨[.raw teamAStats, .raw (sortByWeek teamAStats)]⟩ 1
        (.smoothed (smoothTeam 5 teamAStats))) 1 rfl
  exact ⟨_, _, rfl, h1, h2⟩
